import Mathlib

/-!
Shallow embedding of `src/Shops.py` (MultiWorld-Utilities): the shop data
model and its inventory operations, the funny-price encoder
(`return_funny_price`), the price adjuster (`price_adjust`), the binary
record encoder (`Shop.get_bytes`), and the candidate-selection pieces of
`ShopSlotFill`.  Every call to the random source is modelled by passing the
drawn value (or the drawn permutation) as an explicit oracle argument, so
that the functions are pure and the statements quantify over all draws.
-/

/-- Slot entry: the dict built by `Shop.add_inventory` and
`Shop.push_inventory` (src/Shops.py lines 85-93 and 102-110).  Prices and
counts are natural numbers (every price in the program arises from
`randrange`, multiplication and the encoders below, hence is nonnegative). -/
structure ShopEntry where
  item : String
  price : Nat
  max : Nat
  replacement : Option String
  replacement_price : Nat
  create_location : Bool
  player : Nat
  deriving DecidableEq

/-- ShopType enum (src/Shops.py lines 14-18). -/
inductive ShopType where
  | Shop
  | TakeAny
  | UpgradeShop
  deriving DecidableEq

/-- Shop object (src/Shops.py lines 21-33).  The `region` reference is
represented by the list of the names of the entrances of the region (the
only part of the region that `get_bytes` reads). -/
structure Shop where
  room_id : Nat
  shopkeeper_config : Nat
  type : ShopType
  custom : Bool
  locked : Bool
  sram_offset : Nat
  entranceNames : List String
  inventory : List (Option ShopEntry)
  deriving DecidableEq

/-- Class attribute `Shop.slots = 3` (src/Shops.py line 22). -/
def Shop.slots : Nat := 3

/-- Backward scan of `Shop.item_count` (src/Shops.py lines 35-40): the loop
`for x in range(n - 1, -1, -1): if self.inventory[x]: return x + 1` followed
by `return 0`.  A slot dict is always a non-empty dict, so its Python
truthiness is `isSome`. -/
def itemCountFrom (inv : List (Option ShopEntry)) : Nat → Nat
  | 0 => 0
  | n + 1 => if (inv.getD n none).isSome then n + 1 else itemCountFrom inv n

/-- Property `Shop.item_count` (src/Shops.py lines 35-40). -/
def Shop.item_count (s : Shop) : Nat :=
  itemCountFrom s.inventory Shop.slots

/-- Python truthiness of an `Optional[str]` value: `None` and the empty
string are falsy. -/
def truthyOptStr : Option String → Bool
  | none => false
  | some s => !(s == "")

/-- Method `Shop.has_unlimited` (src/Shops.py lines 57-67): slots with a
truthy `max` are tested on their replacement item, slots with `max == 0`
on their primary item. -/
def Shop.has_unlimited (s : Shop) (item : String) : Bool :=
  s.inventory.any fun inv =>
    match inv with
    | none => false
    | some e => if e.max ≠ 0 then e.replacement == some item else e.item == item

/-- Method `Shop.has` (src/Shops.py lines 69-77): both the primary item and
the replacement item of every populated slot are tested. -/
def Shop.has (s : Shop) (item : String) : Bool :=
  s.inventory.any fun inv =>
    match inv with
    | none => false
    | some e => e.item == item || e.replacement == some item

/-- Method `Shop.can_push_inventory` (src/Shops.py lines 112-113):
`self.inventory[slot] and not self.inventory[slot]["replacement"]`. -/
def Shop.can_push_inventory (s : Shop) (slot : Nat) : Bool :=
  match s.inventory.getD slot none with
  | none => false
  | some e => !(truthyOptStr e.replacement)

/-- Method `Shop.push_inventory` (src/Shops.py lines 95-110).  Raising
`ValueError` on an empty slot is modelled by `Except.error` (the shop value
is left untouched); the `logging.warning` branch is modelled by the boolean
in the `ok` result, which is true exactly when the warning is emitted. -/
def Shop.push_inventory (s : Shop) (slot : Nat) (item : String) (price : Nat)
    (max : Nat) (player : Nat) : Except String (Bool × Shop) :=
  match s.inventory.getD slot none with
  | none => Except.error "Inventory cannot be pushed back if it does not exist"
  | some old =>
      Except.ok (!(s.can_push_inventory slot),
        { s with inventory := s.inventory.set slot (some
            { item := item, price := price, max := max,
              replacement := some old.item, replacement_price := old.price,
              create_location := old.create_location, player := player }) })

/-! Helper lemmas about list access. -/

theorem getD_some_lt {α : Type} (l : List (Option α)) (i : Nat) (e : α)
    (h : l.getD i none = some e) : i < l.length := by
  by_contra hc
  push_neg at hc
  rw [List.getD_eq_getElem?_getD, List.getElem?_eq_none hc] at h
  simp at h

theorem getD_set_self {α : Type} (l : List (Option α)) (i : Nat) (a : Option α)
    (h : i < l.length) : (l.set i a).getD i none = a := by
  rw [List.getD_eq_getElem?_getD, List.getElem?_set_self]
  · rfl
  · exact h

theorem getD_set_ne {α : Type} (l : List (Option α)) (i j : Nat) (a : Option α)
    (h : i ≠ j) : (l.set i a).getD j none = l.getD j none := by
  rw [List.getD_eq_getElem?_getD, List.getElem?_set_ne h, ← List.getD_eq_getElem?_getD]

/-! Lemmas about the backward scan of `item_count`. -/

theorem itemCountFrom_eq_zero (inv : List (Option ShopEntry)) :
    ∀ n, (∀ j, j < n → inv.getD j none = none) → itemCountFrom inv n = 0 := by
  intro n
  induction n with
  | zero => intro _; rfl
  | succ m ih =>
      intro h
      unfold itemCountFrom
      rw [h m (Nat.lt_succ_self m)]
      simp only [Option.isSome_none, Bool.false_eq_true, if_false]
      exact ih fun j hj => h j (Nat.lt_succ_of_lt hj)

theorem itemCountFrom_eq_succ (inv : List (Option ShopEntry)) :
    ∀ n i, i < n → (inv.getD i none).isSome = true →
      (∀ j, i < j → j < n → inv.getD j none = none) → itemCountFrom inv n = i + 1 := by
  intro n
  induction n with
  | zero => intro i hi _ _; exact absurd hi (Nat.not_lt_zero i)
  | succ m ih =>
      intro i hi hsome hnone
      unfold itemCountFrom
      rcases Nat.lt_succ_iff_lt_or_eq.mp hi with hlt | heq
      · rw [hnone m hlt (Nat.lt_succ_self m)]
        simp only [Option.isSome_none, Bool.false_eq_true, if_false]
        exact ih i hlt hsome fun j hj1 hj2 => hnone j hj1 (Nat.lt_succ_of_lt hj2)
      · subst heq
        rw [if_pos hsome]

/-- Sample slot entry used in concrete instances. -/
def sampleEntry : ShopEntry :=
  { item := "Red Potion", price := 150, max := 0, replacement := none,
    replacement_price := 0, create_location := false, player := 0 }

/-- Shop with a hole before the occupied slot: inventory `[None, item, None]`. -/
def itemHoleShop : Shop :=
  { room_id := 0x0112, shopkeeper_config := 0xC1, type := ShopType.Shop,
    custom := true, locked := false, sram_offset := 0, entranceNames := [],
    inventory := [none, some sampleEntry, none] }

/-- C3: for every shop, `item_count` equals 1 plus the highest index of a
non-empty slot and equals 0 when all slots are empty; holes before the last
occupied slot do not reduce it (inventory `[None, item, None]` gives 2). -/
theorem item_count_correct (s : Shop) (_hlen : s.inventory.length = Shop.slots) :
    ((∀ j, j < Shop.slots → s.inventory.getD j none = none) → s.item_count = 0) ∧
    (∀ i, i < Shop.slots → (s.inventory.getD i none).isSome = true →
        (∀ j, i < j → j < Shop.slots → s.inventory.getD j none = none) →
        s.item_count = i + 1) ∧
    (∀ e : ShopEntry, itemCountFrom [none, some e, none] Shop.slots = 2) :=
  ⟨fun h => itemCountFrom_eq_zero s.inventory Shop.slots h,
   fun i hi hs hn => itemCountFrom_eq_succ s.inventory Shop.slots i hi hs hn,
   fun _ => rfl⟩

/-- C3 witness: the hole inventory `[None, item, None]` has item count 2. -/
theorem item_count_correct_witness : itemHoleShop.item_count = 2 :=
  (item_count_correct itemHoleShop rfl).2.1 1 (by decide) (by decide)
    (fun j h1 h2 => by
      have h2' : j < 3 := h2
      have hj : j = 2 := by omega
      subst hj
      rfl)

/-- C9 (amended): `has` is true exactly when some populated slot has its
primary item or its replacement item equal to the query; `has_unlimited` is
true exactly when some slot with nonzero max has its replacement equal to
the query or some slot with max 0 has its primary item equal to the query. -/
theorem has_and_has_unlimited_spec (s : Shop) (item : String) :
    (s.has item = true ↔
      ∃ e : ShopEntry, some e ∈ s.inventory ∧
        (e.item = item ∨ e.replacement = some item)) ∧
    (s.has_unlimited item = true ↔
      ∃ e : ShopEntry, some e ∈ s.inventory ∧
        ((e.max ≠ 0 ∧ e.replacement = some item) ∨ (e.max = 0 ∧ e.item = item))) := by
  constructor
  · rw [Shop.has, List.any_eq_true]
    constructor
    · rintro ⟨o, ho, hp⟩
      cases o with
      | none => simp at hp
      | some e =>
          refine ⟨e, ho, ?_⟩
          simpa using hp
    · rintro ⟨e, he, hc⟩
      refine ⟨some e, he, ?_⟩
      simpa using hc
  · rw [Shop.has_unlimited, List.any_eq_true]
    constructor
    · rintro ⟨o, ho, hp⟩
      cases o with
      | none => simp at hp
      | some e =>
          refine ⟨e, ho, ?_⟩
          by_cases hm : e.max = 0
          · simp only [hm, ne_eq, not_true_eq_false, if_false] at hp
            exact Or.inr ⟨hm, by simpa using hp⟩
          · simp only [ne_eq, hm, not_false_eq_true, if_true] at hp
            exact Or.inl ⟨hm, by simpa using hp⟩
    · rintro ⟨e, he, hc⟩
      refine ⟨some e, he, ?_⟩
      rcases hc with ⟨hm, hr⟩ | ⟨hm, hi⟩
      · simp [hm, hr]
      · simp [hm, hi]

/-- Slot entry of the retro-mode Red Shield Shop single-arrow slot
(src/Shops.py line 372): limited max with a replacement set. -/
def hasCexEntry : ShopEntry :=
  { item := "Single Arrow", price := 80, max := 1, replacement := some "Red Potion",
    replacement_price := 150, create_location := false, player := 0 }

/-- Shop holding only `hasCexEntry`. -/
def hasCexShop : Shop :=
  { room_id := 0x0110, shopkeeper_config := 0xC1, type := ShopType.Shop,
    custom := true, locked := true, sram_offset := 3, entranceNames := [],
    inventory := [some hasCexEntry, none, none] }

/-- C9 counterexample: in a shop whose only populated slot holds primary
item "Single Arrow" with max 1 and replacement "Red Potion", `has` returns
true for "Red Potion" although no slot's primary item equals it, and
`has_unlimited` returns false for "Single Arrow" although a slot's primary
item equals it — refuting both claimed characterisations. -/
theorem has_claim_counterexample :
    hasCexShop.has "Red Potion" = true ∧
    hasCexShop.inventory.all
      (fun o => match o with
                | none => true
                | some e => !(e.item == "Red Potion")) = true ∧
    hasCexShop.has_unlimited "Single Arrow" = false ∧
    hasCexShop.inventory.any
      (fun o => match o with
                | none => false
                | some e => e.item == "Single Arrow") = true := by
  decide

/-- C9 witness: the amended characterisation evaluated on `hasCexShop`. -/
theorem has_and_has_unlimited_spec_witness :
    hasCexShop.has "Red Potion" = true ∧ hasCexShop.has_unlimited "Red Potion" = true :=
  ⟨(has_and_has_unlimited_spec hasCexShop "Red Potion").1.mpr
      ⟨hasCexEntry, by decide, Or.inr rfl⟩,
   (has_and_has_unlimited_spec hasCexShop "Red Potion").2.mpr
      ⟨hasCexEntry, by decide, Or.inl ⟨by decide, rfl⟩⟩⟩

/-- C2: pushing into an empty slot fails with an error (the shop value is
untouched); pushing into a populated slot always succeeds, the previous
(item, price) become exactly the new (replacement, replacement_price), the
arguments become the primary fields, other slots are unchanged,
`can_push_inventory` is false afterwards, and the warning flag is raised
exactly when the slot already had a replacement. -/
theorem push_inventory_spec (s : Shop) (slot : Nat) (it : String) (pr mx pl : Nat) :
    (s.inventory.getD slot none = none →
        s.push_inventory slot it pr mx pl =
          Except.error "Inventory cannot be pushed back if it does not exist") ∧
    (∀ old : ShopEntry, s.inventory.getD slot none = some old →
        (truthyOptStr old.replacement = false → s.can_push_inventory slot = true) ∧
        ∀ w t, s.push_inventory slot it pr mx pl = Except.ok (w, t) →
          (w = true ↔ s.can_push_inventory slot = false) ∧
          t.inventory.getD slot none =
            some { item := it, price := pr, max := mx,
                   replacement := some old.item, replacement_price := old.price,
                   create_location := old.create_location, player := pl } ∧
          (∀ j, j ≠ slot → t.inventory.getD j none = s.inventory.getD j none) ∧
          (old.item ≠ "" → t.can_push_inventory slot = false)) ∧
    (∀ old : ShopEntry, s.inventory.getD slot none = some old →
        ∃ w t, s.push_inventory slot it pr mx pl = Except.ok (w, t)) := by
  refine ⟨?_, ?_, ?_⟩
  · intro h
    unfold Shop.push_inventory
    rw [h]
  · intro old h
    have hlt : slot < s.inventory.length := getD_some_lt _ _ _ h
    constructor
    · intro hrep
      unfold Shop.can_push_inventory
      rw [h]
      show (!(truthyOptStr old.replacement)) = true
      rw [hrep]
      rfl
    · intro w t hok
      unfold Shop.push_inventory at hok
      rw [h] at hok
      rw [Except.ok.injEq, Prod.mk.injEq] at hok
      obtain ⟨hw, ht⟩ := hok
      subst hw
      subst ht
      refine ⟨?_, ?_, ?_, ?_⟩
      · cases hcp : s.can_push_inventory slot <;> simp [hcp]
      · exact getD_set_self s.inventory slot _ hlt
      · intro j hj
        exact getD_set_ne s.inventory slot j _ (fun hx => hj hx.symm)
      · intro hne
        have hget := getD_set_self s.inventory slot
          (some { item := it, price := pr, max := mx,
                  replacement := some old.item, replacement_price := old.price,
                  create_location := old.create_location, player := pl }) hlt
        unfold Shop.can_push_inventory
        rw [hget]
        show (!(truthyOptStr (some old.item))) = false
        simp [truthyOptStr, hne]
  · intro old h
    refine ⟨!(s.can_push_inventory slot),
      { s with inventory := s.inventory.set slot (some
          { item := it, price := pr, max := mx,
            replacement := some old.item, replacement_price := old.price,
            create_location := old.create_location, player := pl }) }, ?_⟩
    unfold Shop.push_inventory
    rw [h]

/-- Populated capacity-upgrade slot before a push (spec scenario:
`("Bomb Upgrade (+5)", 100, max=0)`). -/
def pushCexEntry : ShopEntry :=
  { item := "Bomb Upgrade (+5)", price := 100, max := 0, replacement := none,
    replacement_price := 0, create_location := false, player := 0 }

/-- Capacity Upgrade shop holding `pushCexEntry` in slot 0. -/
def pushCexShop : Shop :=
  { room_id := 0x0115, shopkeeper_config := 0x04, type := ShopType.UpgradeShop,
    custom := true, locked := true, sram_offset := 30, entranceNames := [],
    inventory := [some pushCexEntry, none, none] }

/-- Shop state expected after pushing ("Bomb Upgrade (+5)", 100, max 7)
into slot 0 of `pushCexShop`. -/
def pushResultShop : Shop :=
  { pushCexShop with inventory :=
      [some { item := "Bomb Upgrade (+5)", price := 100, max := 7,
              replacement := some "Bomb Upgrade (+5)", replacement_price := 100,
              create_location := false, player := 0 }, none, none] }

/-- C2 witness: pushing into the populated slot 0 of `pushCexShop` succeeds
without a warning, demotes the old entry to the replacement fields, and
`can_push_inventory` is false afterwards. -/
theorem push_inventory_spec_witness :
    pushCexShop.can_push_inventory 0 = true ∧
    pushCexShop.push_inventory 0 "Bomb Upgrade (+5)" 100 7 0 =
      Except.ok (false, pushResultShop) ∧
    pushResultShop.inventory.getD 0 none =
      some { item := "Bomb Upgrade (+5)", price := 100, max := 7,
             replacement := some "Bomb Upgrade (+5)", replacement_price := 100,
             create_location := false, player := 0 } ∧
    pushResultShop.can_push_inventory 0 = false := by
  have h := (push_inventory_spec pushCexShop 0 "Bomb Upgrade (+5)" 100 7 0).2.1
      pushCexEntry rfl
  refine ⟨h.1 rfl, rfl, ?_, ?_⟩
  · exact (h.2 false pushResultShop rfl).2.1
  · exact (h.2 false pushResultShop rfl).2.2.2 (by decide)

/-! Funny-price encoder (src/Shops.py lines 220-244). -/

/-- Boolean test that `needle` occurs at the start of `hay` (as char lists). -/
def leadMatch : List Char → List Char → Bool
  | [], _ => true
  | _ :: _, [] => false
  | a :: as, b :: bs => a == b && leadMatch as bs

/-- Boolean test that `needle` occurs somewhere inside `hay`. -/
def containsSub (needle : List Char) : List Char → Bool
  | [] => leadMatch needle []
  | b :: t => leadMatch needle (b :: t) || containsSub needle t

/-- Python substring operator `needle in hay`. -/
def strContains (hay needle : String) : Bool :=
  containsSub needle.data hay.data

/-- Iteration order of the keys of `price_blacklist`
(src/Shops.py lines 220-221, insertion order). -/
def price_types : List String :=
  ["rupee", "heart", "magic", "bomb", "arrow", "ch", "cb", "ca", "keys", "potion"]

/-- Exclusion sets of `price_blacklist` (src/Shops.py lines 220-221). -/
def price_blacklist : String → List String
  | "rupee" => ["Rupees"]
  | "heart" => ["Small Heart", "Apple"]
  | "magic" => ["Magic Jar"]
  | "bomb" => ["Bombs", "Single Bomb"]
  | "arrow" => ["Arrows", "Single Arrow"]
  | _ => []

/-- Guard `any(x in item_name for x in price_blacklist[p])`
(src/Shops.py line 230). -/
def skipsCategory (item_name p : String) : Bool :=
  (price_blacklist p).any fun x => strContains item_name x

/-- Body of the category branch of `return_funny_price` (src/Shops.py lines
232-242) applied to the selected tag `p`.  The potion `randrange(0, 6)` draw
is the oracle `potionDraw`; the second component counts how many times that
draw was consumed. -/
def applyCategory (keysUniversal : Bool) (potionDraw : Nat) (p : String)
    (price : Nat) : Nat × Nat :=
  if p == "rupee" || p == "cb" || p == "ca" || (p == "keys" && !keysUniversal) then
    (price * 5, 0)
  else
    let price := if p == "heart" then (min 0x10 price) * 4 else price
    let price := if p == "magic" then (min 0x20 price) * 4 else price
    let price := if p == "bomb" then min 10 (price / 4) else price
    let price := if p == "arrow" then min 30 (price / 2) else price
    let price := if p == "ch" then (min 0x3 (max 0x1 (price / 8))) * 8 else price
    let price := if p == "keys" then min 0x3 (max 0x1 (price / 8)) else price
    let price := if p == "potion" then potionDraw else price
    (Nat.lor price (Nat.lor 0x8000 (0x100 * (price_types.indexOf p - 1))),
     if p == "potion" then 1 else 0)

/-- Loop `for p in my_choices` of `return_funny_price` (src/Shops.py lines
229-243): skip a tag whose exclusion set matches the item name, apply the
first remaining tag and break. -/
def funnyLoop (item_name : String) (keysUniversal : Bool) (potionDraw : Nat)
    (price : Nat) : List String → Nat × Nat
  | [] => (price, 0)
  | p :: rest =>
      if skipsCategory item_name p then
        funnyLoop item_name keysUniversal potionDraw price rest
      else applyCategory keysUniversal potionDraw p price

/-- Function `return_funny_price` (src/Shops.py lines 223-244).  The call
`world.random.sample(my_price_types, len(my_price_types))` is the oracle
`perm` (a permutation of `price_types`) and counts as one random draw;
`world.keyshuffle[player] != "universal"` is the negation of
`keysUniversal`.  Returns the price together with the number of random
draws consumed. -/
def return_funny_price (price : Nat) (item_name : Option String)
    (perm : List String) (keysUniversal : Bool) (potionDraw : Nat) : Nat × Nat :=
  match item_name with
  | none => (price, 0)
  | some name =>
      let funny := max 1 (price / 5)
      let r := funnyLoop name keysUniversal potionDraw funny perm
      (r.1, 1 + r.2)

/-- First tag of `perm` whose exclusion set does not match the item name:
the category that the loop of `return_funny_price` selects. -/
def selectedCategory (item_name : String) (perm : List String) : Option String :=
  perm.find? fun p => !(skipsCategory item_name p)

/-- Characterisation of the loop through the selected category. -/
theorem funnyLoop_eq_find (name : String) (kU : Bool) (pd : Nat) (price : Nat) :
    ∀ perm : List String,
      funnyLoop name kU pd price perm =
        match selectedCategory name perm with
        | none => (price, 0)
        | some p => applyCategory kU pd p price := by
  intro perm
  induction perm with
  | nil => rfl
  | cons p rest ih =>
      by_cases hp : skipsCategory name p = true
      · rw [show funnyLoop name kU pd price (p :: rest) =
              funnyLoop name kU pd price rest from by simp [funnyLoop, hp]]
        rw [ih]
        unfold selectedCategory
        rw [List.find?_cons_of_neg]
        simp [hp]
      · rw [show funnyLoop name kU pd price (p :: rest) =
              applyCategory kU pd p price from by simp [funnyLoop, hp]]
        unfold selectedCategory
        rw [List.find?_cons_of_pos]
        simp [hp]

/-- Sentinel tagging forces a nonzero result: bit 15 of the OR mask is set. -/
theorem lor_sentinel_ne_zero (a c : Nat) : Nat.lor a (Nat.lor 0x8000 c) ≠ 0 := by
  intro h
  have h' : a ||| (0x8000 ||| c) = 0 := h
  have ht : (a ||| (0x8000 ||| c)).testBit 15 = true := by
    rw [Nat.testBit_lor, Nat.testBit_lor]
    simp [show Nat.testBit 0x8000 15 = true from by decide]
  rw [h'] at ht
  simp [Nat.zero_testBit] at ht

/-- Every branch of the category remap keeps a positive price positive or
tags it with the 0x8000 sentinel, hence never returns 0. -/
theorem applyCategory_ne_zero (kU : Bool) (pd : Nat) (p : String) (price : Nat)
    (hpos : price ≠ 0) : (applyCategory kU pd p price).1 ≠ 0 := by
  unfold applyCategory
  by_cases hb : (p == "rupee" || p == "cb" || p == "ca" || (p == "keys" && !kU)) = true
  · rw [if_pos hb]
    exact Nat.mul_ne_zero hpos (by decide)
  · rw [if_neg hb]
    exact lor_sentinel_ne_zero _ _

/-- Positive prices survive the whole category loop. -/
theorem funnyLoop_ne_zero (name : String) (kU : Bool) (pd : Nat) (price : Nat)
    (hpos : price ≠ 0) :
    ∀ perm : List String, (funnyLoop name kU pd price perm).1 ≠ 0 := by
  intro perm
  induction perm with
  | nil => exact hpos
  | cons p rest ih =>
      by_cases hp : skipsCategory name p = true
      · rw [show funnyLoop name kU pd price (p :: rest) =
              funnyLoop name kU pd price rest from by simp [funnyLoop, hp]]
        exact ih
      · rw [show funnyLoop name kU pd price (p :: rest) =
              applyCategory kU pd p price from by simp [funnyLoop, hp]]
        exact applyCategory_ne_zero kU pd p price hpos

/-- C1 counterexample: a raw price of 0 for the item "Blue Shield" with the
category order drawn as the identity permutation encodes to 5 (the rupee
branch multiplies the clamped funny unit 1 by 5), not to 0. -/
theorem funny_price_zero_counterexample :
    (return_funny_price 0 (some "Blue Shield") price_types false 0).1 = 5 ∧
    (5 : Nat) ≠ 0 := by
  decide

/-- C1 (amended): a raw price of 0 is returned unchanged only when the item
name is None; with an actual item name the price is first clamped to at
least one funny unit by `max(1, price // 5)`, so the encoded price is never
0, for every category order, key-shuffle mode and potion draw. -/
theorem funny_price_zero_amended (perm : List String) (kU : Bool) (pd : Nat) :
    (return_funny_price 0 none perm kU pd).1 = 0 ∧
    ∀ name : String, (return_funny_price 0 (some name) perm kU pd).1 ≠ 0 :=
  ⟨rfl, fun name => funnyLoop_ne_zero name kU pd 1 (by decide) perm⟩

/-- C1 witness: the amended statement evaluated at the identity category
order. -/
theorem funny_price_zero_amended_witness :
    (return_funny_price 0 none price_types false 0).1 = 0 ∧
    (return_funny_price 0 (some "Blue Shield") price_types false 0).1 ≠ 0 :=
  ⟨(funny_price_zero_amended price_types false 0).1,
   (funny_price_zero_amended price_types false 0).2 "Blue Shield"⟩

/-- C10: with item_name None, `return_funny_price` returns the raw price
unchanged and consumes no random draws, for every price, every permutation
oracle, every key-shuffle mode and every potion-draw oracle. -/
theorem funny_price_none_id (price : Nat) (perm : List String) (kU : Bool) (pd : Nat) :
    return_funny_price price none perm kU pd = (price, 0) :=
  rfl

/-- C10 witness: concrete instance of the identity behaviour. -/
theorem funny_price_none_id_witness :
    return_funny_price 123 none price_types true 5 = (123, 0) :=
  funny_price_none_id 123 price_types true 5

/-- Permutation of the category tags putting "cb" first. -/
def cbFirstPerm : List String :=
  ["cb", "rupee", "heart", "magic", "bomb", "arrow", "ch", "ca", "keys", "potion"]

/-- Permutation of the category tags putting "ch" first. -/
def chFirstPerm : List String :=
  ["ch", "rupee", "heart", "magic", "bomb", "arrow", "cb", "ca", "keys", "potion"]

/-- C7 counterexample: with the category order starting at "cb" the
selected category for "Blue Shield" is the crystal tag "cb", yet the raw
price 40 encodes to 40 = (funny unit 8) * 5: no clamp to [1,3] * 8 and no
0x8000 sentinel bit is applied, refuting the claim for "cb". -/
theorem crystal_category_counterexample :
    selectedCategory "Blue Shield" cbFirstPerm = some "cb" ∧
    (return_funny_price 40 (some "Blue Shield") cbFirstPerm false 0).1 = 40 ∧
    Nat.testBit 40 15 = false ∧ (40 : Nat) ≠ (min 3 (max 1 (8 / 8))) * 8 := by
  decide

/-- C7 (amended): only the tag "ch" receives the crystal treatment — clamp
of the funny unit to [1,3] by integer division by 8, scale by 8, and the
sentinel 0x8000 ||| 0x400 (0x100 times its category index 5 minus 1); the
tags "cb" and "ca" fall into the plain-currency branch and multiply the
funny unit by 5 with no sentinel, whenever each of them is the selected
category. -/
theorem crystal_category_amended (price : Nat) (name : String)
    (perm : List String) (kU : Bool) (pd : Nat) :
    (selectedCategory name perm = some "ch" →
        (return_funny_price price (some name) perm kU pd).1 =
          Nat.lor ((min 3 (max 1 ((max 1 (price / 5)) / 8))) * 8) 0x8400) ∧
    (selectedCategory name perm = some "cb" →
        (return_funny_price price (some name) perm kU pd).1 =
          (max 1 (price / 5)) * 5) ∧
    (selectedCategory name perm = some "ca" →
        (return_funny_price price (some name) perm kU pd).1 =
          (max 1 (price / 5)) * 5) := by
  refine ⟨?_, ?_, ?_⟩ <;>
    · intro h
      show (funnyLoop name kU pd (max 1 (price / 5)) perm).1 = _
      rw [funnyLoop_eq_find, h]
      rfl

/-- C7 witness: the amended statement at raw price 40 for "Blue Shield",
with "ch" first (encodes to 0x8408) and with "cb" first (encodes to 40). -/
theorem crystal_category_amended_witness :
    (return_funny_price 40 (some "Blue Shield") chFirstPerm false 0).1 = 0x8408 ∧
    (return_funny_price 40 (some "Blue Shield") cbFirstPerm false 0).1 = 40 := by
  refine ⟨?_, ?_⟩
  · have h := (crystal_category_amended 40 "Blue Shield" chFirstPerm false 0).1
      (by decide)
    rw [h]
    decide
  · have h := (crystal_category_amended 40 "Blue Shield" cbFirstPerm false 0).2.1
      (by decide)
    rw [h]
    decide

/-- Function `price_adjust` (src/Shops.py lines 446-449), with
`world.random.random()` as the oracle `r` (a rational in [0, 1), standing
for the drawn float; the claim concerns the order of operations, not float
rounding).  Python `int()` truncation coincides with the floor on the
nonnegative operand arising for `0 ≤ r`. -/
def price_adjust (price : Nat) (r : ℚ) : ℤ :=
  let adjust : Nat := if price < 100 then 2 else 5
  ⌊((price : ℚ) / (adjust : ℚ)) * (1/2 + r * (3/2))⌋ * (adjust : ℤ)

/-- Variant of `price_adjust` following the words of the claim (refinement
comparison only, translated from the spec, not from the source): the floor
to an integer is taken AFTER the original scale is restored by multiplying
back by the divisor. -/
def price_adjust_claim (price : Nat) (r : ℚ) : ℤ :=
  let adjust : Nat := if price < 100 then 2 else 5
  ⌊((price : ℚ) / (adjust : ℚ)) * (1/2 + r * (3/2)) * (adjust : ℚ)⌋

/-- Unfolding equation for `price_adjust`. -/
theorem price_adjust_def (price : Nat) (r : ℚ) :
    price_adjust price r =
      ⌊((price : ℚ) / (((if price < 100 then 2 else 5) : ℕ) : ℚ)) * (1/2 + r * (3/2))⌋ *
        (((if price < 100 then 2 else 5) : ℕ) : ℤ) := rfl

/-- C8 counterexample: at raw price 3 with random draw r = 1/3 (factor
exactly 1) the code truncates 3/2 to 1 before multiplying back by the
divisor 2, returning 2; the claimed floor-after-restoring-scale formula
returns 3. -/
theorem price_adjust_counterexample :
    price_adjust 3 (1/3) = 2 ∧ price_adjust_claim 3 (1/3) = 3 ∧ (2 : ℤ) ≠ 3 := by
  refine ⟨?_, ?_, by decide⟩
  · unfold price_adjust
    norm_num
  · unfold price_adjust_claim
    norm_num

/-- C8 (amended): `price_adjust` computes the divisor (2 below 100, else 5)
and the uniform factor in [1/2, 2) as claimed, but truncates
(price / divisor) * factor to an integer BEFORE multiplying back by the
divisor; consequently the result is always a multiple of the divisor,
`price_adjust 0 = 0` holds, and the result never exceeds twice the raw
price. -/
theorem price_adjust_amended (price : Nat) (r : ℚ) (_h0 : 0 ≤ r) (h1 : r < 1) :
    ((if price < 100 then (2:ℤ) else 5) ∣ price_adjust price r) ∧
    price_adjust 0 r = 0 ∧
    price_adjust price r ≤ 2 * (price : ℤ) := by
  have hfle : (1/2 + r * (3/2) : ℚ) ≤ 2 := by linarith
  refine ⟨?_, ?_, ?_⟩
  · rw [price_adjust_def]
    by_cases hp : price < 100
    · simp only [hp, if_true]
      push_cast
      exact dvd_mul_left 2 _
    · simp only [hp, if_false]
      push_cast
      exact dvd_mul_left 5 _
  · rw [price_adjust_def]
    norm_num
  · rw [price_adjust_def]
    set a : ℕ := if price < 100 then 2 else 5 with ha
    have ha0 : (0:ℚ) < (a:ℚ) := by
      rw [ha]
      by_cases hp : price < 100 <;> simp [hp]
    have hq0 : (0:ℚ) ≤ (price:ℚ) / (a:ℚ) := div_nonneg (by positivity) ha0.le
    have hfl : ((⌊((price:ℚ)/(a:ℚ)) * (1/2 + r*(3/2))⌋ : ℤ) : ℚ) ≤ ((price:ℚ)/(a:ℚ)) * 2 :=
      le_trans (Int.floor_le _) (mul_le_mul_of_nonneg_left hfle hq0)
    have hmul : ((⌊((price:ℚ)/(a:ℚ)) * (1/2 + r*(3/2))⌋ : ℤ) : ℚ) * (a:ℚ) ≤
        ((price:ℚ)/(a:ℚ)) * 2 * (a:ℚ) :=
      mul_le_mul_of_nonneg_right hfl ha0.le
    have hsimp : ((price:ℚ)/(a:ℚ)) * 2 * (a:ℚ) = 2 * (price:ℚ) := by
      field_simp
      ring
    rw [hsimp] at hmul
    exact_mod_cast hmul

/-- C8 witness: the amended statement at price 3 with r = 1/3. -/
theorem price_adjust_amended_witness :
    ((2:ℤ) ∣ price_adjust 3 (1/3)) ∧ price_adjust 0 (1/3) = 0 ∧
    price_adjust 3 (1/3) ≤ 6 := by
  have h := price_adjust_amended 3 (1/3) (by norm_num) (by norm_num)
  refine ⟨h.1, h.2.1, ?_⟩
  have h2 := h.2.2
  norm_num at h2
  exact h2

/-! Binary record encoder (src/Shops.py lines 42-55). -/

/-- Modelled from the spec: `int16_as_bytes` lives in Utils.py, which is
not under src/; per spec §4.4 the 16-bit room id is serialised
little-endian, low byte then high byte. -/
def int16_as_bytes (v : Nat) : List Nat :=
  [v % 256, v / 256 % 256]

/-- Kind-specific configuration bits (src/Shops.py lines 51-54): TakeAny
ORs 0x80 into the config byte, UpgradeShop ORs 0x10, plain shops add
nothing. -/
def shopKindBits : ShopType → Nat → Nat
  | ShopType.TakeAny, c => Nat.lor c 0x80
  | ShopType.UpgradeShop, c => Nat.lor c 0x10
  | ShopType.Shop, c => c

/-- Door-id and config computation of `get_bytes` (src/Shops.py lines
44-50): the door id is the mapped address + 1 when the region has exactly
one entrance whose name is in the door table, else 0 with the 0x40
"ignore door id" bit ORed into the config byte. -/
def doorFor (da : String → Option Nat) : List String → Nat → Nat × Nat
  | [e], config =>
      (match da e with
       | some addr => (addr + 1, config)
       | none => (0, Nat.lor config 0x40))
  | _, config => (0, Nat.lor config 0x40)

/-- Method `Shop.get_bytes` (src/Shops.py lines 42-55).  The table
`door_addresses` lives in EntranceShuffle.py, which is not under src/;
modelled from the spec as the abstract partial map `da` from an entrance
name to the door address (the first component of the table entry, the part
`get_bytes` reads). -/
def Shop.get_bytes (da : String → Option Nat) (s : Shop) : List Nat :=
  let config := s.item_count
  let doorConfig : Nat × Nat := doorFor da s.entranceNames config
  let config := shopKindBits s.type doorConfig.2
  [0x00] ++ int16_as_bytes s.room_id ++
    [doorConfig.1, 0x00, config, s.shopkeeper_config, 0x00]

/-- Unfolding equations for `doorFor`. -/
theorem doorFor_single_some (da : String → Option Nat) (e : String) (addr config : Nat)
    (hD : da e = some addr) : doorFor da [e] config = (addr + 1, config) := by
  simp only [doorFor]
  rw [hD]

theorem doorFor_single_none (da : String → Option Nat) (e : String) (config : Nat)
    (hD : da e = none) : doorFor da [e] config = (0, Nat.lor config 0x40) := by
  simp only [doorFor]
  rw [hD]

/-- C4: `get_bytes` produces exactly the 8-byte record
`[0x00, room-low, room-high, door-id, 0x00, config, shopkeeper, 0x00]`
with the config byte starting from `item_count`; when the region has
exactly one entrance present in the door table the door id is the mapped
address + 1, otherwise the door id is 0 and the config byte gains the 0x40
bit; TakeAny ORs in 0x80 and UpgradeShop ORs in 0x10. -/
theorem get_bytes_spec (da : String → Option Nat) (s : Shop) :
    ((s.get_bytes da).length = 8) ∧
    (∀ e addr, s.entranceNames = [e] → da e = some addr →
        s.get_bytes da =
          [0, s.room_id % 256, s.room_id / 256 % 256, addr + 1, 0,
           shopKindBits s.type s.item_count, s.shopkeeper_config, 0]) ∧
    ((∀ e addr, ¬(s.entranceNames = [e] ∧ da e = some addr)) →
        s.get_bytes da =
          [0, s.room_id % 256, s.room_id / 256 % 256, 0, 0,
           shopKindBits s.type (Nat.lor s.item_count 0x40), s.shopkeeper_config, 0]) := by
  have h2 : ∀ e addr, s.entranceNames = [e] → da e = some addr →
      s.get_bytes da =
        [0, s.room_id % 256, s.room_id / 256 % 256, addr + 1, 0,
         shopKindBits s.type s.item_count, s.shopkeeper_config, 0] := by
    intro e addr hE hD
    simp only [Shop.get_bytes, hE]
    rw [doorFor_single_some da e addr s.item_count hD]
    rfl
  have h3 : (∀ e addr, ¬(s.entranceNames = [e] ∧ da e = some addr)) →
      s.get_bytes da =
        [0, s.room_id % 256, s.room_id / 256 % 256, 0, 0,
         shopKindBits s.type (Nat.lor s.item_count 0x40), s.shopkeeper_config, 0] := by
    intro h
    rcases hE : s.entranceNames with _ | ⟨e, _ | ⟨e2, rest2⟩⟩
    · simp only [Shop.get_bytes, hE]
      rfl
    · rcases hD : da e with _ | addr
      · simp only [Shop.get_bytes, hE]
        rw [doorFor_single_none da e s.item_count hD]
        rfl
      · exact absurd ⟨hE, hD⟩ (h e addr)
    · simp only [Shop.get_bytes, hE]
      rfl
  refine ⟨?_, h2, h3⟩
  by_cases h : ∃ e addr, s.entranceNames = [e] ∧ da e = some addr
  · obtain ⟨e, addr, hE, hD⟩ := h
    rw [h2 e addr hE hD]
    rfl
  · push_neg at h
    rw [h3 fun e addr hc => h e addr hc.1 hc.2]
    rfl

/-- Door-address map for the concrete witness instance. -/
def doorTable : String → Option Nat
  | "Kakariko Shop" => some 0x45
  | _ => none

/-- Kakariko-style shop with a single entrance present in the door table. -/
def getBytesShop : Shop :=
  { room_id := 0x011F, shopkeeper_config := 0xA0, type := ShopType.Shop,
    custom := true, locked := false, sram_offset := 21,
    entranceNames := ["Kakariko Shop"],
    inventory := [some sampleEntry, none, none] }

/-- C4 witness: the record of `getBytesShop` (item count 1, door 0x45+1). -/
theorem get_bytes_spec_witness :
    Shop.get_bytes doorTable getBytesShop =
      [0, 0x1F, 0x01, 0x46, 0, 1, 0xA0, 0] := by
  have h := (get_bytes_spec doorTable getBytesShop).2.1 "Kakariko Shop" 0x45 rfl rfl
  rw [h]
  rfl

/-! Swap-pool sphere selection of ShopSlotFill (src/Shops.py lines
172-190).  Only the sphere sizes matter for the selection, so spheres are
represented by their sizes. -/

/-- Accumulating loop building `cumu_weights` (src/Shops.py lines 172-180):
entry k is len(sphere 0) + ... + len(sphere k). -/
def cumuFrom (acc : Nat) : List Nat → List Nat
  | [] => []
  | s :: rest => (acc + s) :: cumuFrom (acc + s) rest

/-- The list `cumu_weights` of src/Shops.py lines 172-180. -/
def cumu_weights (sizes : List Nat) : List Nat := cumuFrom 0 sizes

/-- Modelled from the spec: `random.choices(population, cum_weights)` is
the Python standard library (not under src/); per the spec it performs
cumulative-weight sampling: it draws u = random() * total with total the
last cumulative weight and returns the element at the first position whose
cumulative weight exceeds u, capped at the last position — on a
nondecreasing integer cumulative list that position is the count of entries
that are at most u, capped at length - 1, and only the integer part of the
draw matters, so the draw is the natural-number oracle u. -/
def choicesIndex (cum : List Nat) (u : Nat) : Nat :=
  min (cum.countP fun c => c ≤ u) (cum.length - 1)

/-- Selection of the swap-pool sphere (src/Shops.py line 190): the absolute
index of `world.random.choices(candidates_per_sphere[i:],
cum_weights=cumu_weights[i:])[0]` for the current sphere index i. -/
def chooseSwapSphere (sizes : List Nat) (i : Nat) (u : Nat) : Nat :=
  i + choicesIndex ((cumu_weights sizes).drop i) u

/-- Selection described by the claim (refinement comparison only,
translated from the spec, not from the source): cumulative-weight sampling
over the sphere sizes starting at index i, each sphere weighted by its own
size. -/
def chooseSwapSphereClaim (sizes : List Nat) (i : Nat) (u : Nat) : Nat :=
  i + choicesIndex (cumu_weights (sizes.drop i)) u

/-- Total used by the code for the draw: the last entry of the sliced
cumulative list, which is the last global cumulative weight. -/
def sphereTotal (sizes : List Nat) : Nat := (cumu_weights sizes).getLastD 0

/-- Number of draws u in [0, total) under which the code selects sphere j:
the effective sampling weight of sphere j. -/
def sphereWeight (sizes : List Nat) (i j : Nat) : Nat :=
  (List.range (sphereTotal sizes)).countP fun u => chooseSwapSphere sizes i u == j

/-- C5 counterexample: for sphere sizes [2, 3, 4] and current index 1 the
code gives sphere 1 the effective weight 5 (the cumulative size of spheres
0..1) and sphere 2 the weight 4, which is not proportional to the own
sizes 3 and 4 (5 * 4 is not 3 * 4); concretely, at draw u = 4 the code
selects sphere 1 while size-proportional cumulative sampling starting at
index 1 selects sphere 2. -/
theorem swap_sphere_counterexample :
    sphereWeight [2, 3, 4] 1 1 = 5 ∧ sphereWeight [2, 3, 4] 1 2 = 4 ∧
    5 * 4 ≠ 3 * 4 ∧
    chooseSwapSphere [2, 3, 4] 1 4 = 1 ∧ chooseSwapSphereClaim [2, 3, 4] 1 4 = 2 := by
  decide

/-- Dropping k entries of the cumulative list shifts the accumulator by the
sum of the first k sizes. -/
theorem cumuFrom_drop :
    ∀ (k : Nat) (l : List Nat) (acc : Nat),
      (cumuFrom acc l).drop k = cumuFrom (acc + (l.take k).sum) (l.drop k) := by
  intro k
  induction k with
  | zero => intro l acc; simp
  | succ m ih =>
      intro l acc
      cases l with
      | nil => simp [cumuFrom]
      | cons s rest =>
          show ((acc + s) :: cumuFrom (acc + s) rest).drop (m + 1) =
            cumuFrom (acc + ((s :: rest).take (m + 1)).sum) ((s :: rest).drop (m + 1))
          rw [List.drop_succ_cons, ih rest (acc + s)]
          congr 1
          simp [List.take_succ_cons]
          omega

/-- C5 (amended): the swap-pool sphere is chosen by cumulative-weight
sampling over the GLOBAL cumulative weights sliced at the current index i,
which coincides with size-proportional cumulative sampling in which sphere
i carries the total size of spheres 0..i as its weight while every later
sphere carries its own size. -/
theorem swap_sphere_amended (sizes : List Nat) (i : Nat) (u : Nat)
    (hi : i < sizes.length) :
    chooseSwapSphere sizes i u =
      i + choicesIndex (cumu_weights ((sizes.take (i + 1)).sum :: sizes.drop (i + 1))) u := by
  unfold chooseSwapSphere
  congr 2
  unfold cumu_weights
  rw [cumuFrom_drop i sizes 0, List.drop_eq_getElem_cons hi]
  have hsum : (sizes.take (i + 1)).sum = (sizes.take i).sum + sizes[i] :=
    List.sum_take_succ sizes i hi
  simp [cumuFrom, hsum, Nat.add_assoc]

/-- C5 witness: the amended equation at sizes [2, 3, 4], index 1, draw 4
(the modified size list is [5, 4]). -/
theorem swap_sphere_amended_witness :
    chooseSwapSphere [2, 3, 4] 1 4 = 1 + choicesIndex (cumu_weights [5, 4]) 4 :=
  swap_sphere_amended [2, 3, 4] 1 4 (by decide)

/-! Candidate scan of ShopSlotFill (src/Shops.py lines 160-168 and
191-195). -/

/-- Item reference carried by a location (name and owning player, the two
fields the scan reads). -/
structure Item where
  name : String
  player : Nat

/-- Location as seen by the scan of ShopSlotFill: the `locked` and
`shop_slot` flags, the currently assigned item and the item-acceptance
predicate `item_rule`. -/
structure Location where
  locked : Bool
  shop_slot : Bool
  item : Item
  item_rule : Item → Bool

/-- Blacklist construction of ShopSlotFill (src/Shops.py lines 160-163):
every name of the item table containing the substring "Rupee", plus the
literal name "Bee".  The item table lives in Items.py, which is not under
src/; modelled from the spec as the abstract list of its item names. -/
def blacklist_words (itemTableNames : List String) : List String :=
  (itemTableNames.filter fun n => strContains n "Rupee") ++ ["Bee"]

/-- The lambda `candidate_condition` (src/Shops.py lines 166-168): not
locked, not itself a shop slot, and the item name not a member of the
blacklist set. -/
def candidate_condition (bl : List String) (loc : Location) : Bool :=
  !loc.locked && !loc.shop_slot && !(bl.contains loc.item.name)

/-- Inner for-loop of ShopSlotFill (src/Shops.py lines 191-195): the first
location of the (already shuffled) swap-pool sphere that satisfies
`candidate_condition` and the bidirectional item-rule check against the
shop-slot location. -/
def find_swap_candidate (bl : List String) (slotLoc : Location)
    (sphere : List Location) : Option Location :=
  sphere.find? fun c =>
    candidate_condition bl c && c.item_rule slotLoc.item && slotLoc.item_rule c.item

/-- A false `contains` means non-membership. -/
theorem not_mem_of_contains_false (l : List String) (a : String)
    (h : l.contains a = false) : a ∉ l := by
  intro hm
  simp [List.contains_eq_any_beq, hm] at h

/-- C6 (amended): every candidate the scan accepts is unlocked, is not a
shop slot, has an item name outside the blacklist SET — so it is never an
item-table name containing "Rupee" and never the exact name "Bee"
(substring matching applies only against "Rupee" while building the set) —
and satisfies the bidirectional acceptance rule with the shop slot. -/
theorem swap_candidate_spec (itemTable : List String) (slotLoc : Location)
    (sphere : List Location) (c : Location)
    (h : find_swap_candidate (blacklist_words itemTable) slotLoc sphere = some c) :
    c.locked = false ∧ c.shop_slot = false ∧
    (blacklist_words itemTable).contains c.item.name = false ∧
    ¬(c.item.name ∈ itemTable ∧ strContains c.item.name "Rupee" = true) ∧
    c.item.name ≠ "Bee" ∧
    c.item_rule slotLoc.item = true ∧ slotLoc.item_rule c.item = true := by
  have hp := List.find?_some h
  simp only [Bool.and_eq_true] at hp
  obtain ⟨⟨hcc, hr1⟩, hr2⟩ := hp
  unfold candidate_condition at hcc
  simp only [Bool.and_eq_true, Bool.not_eq_true'] at hcc
  obtain ⟨⟨hl, hs⟩, hb⟩ := hcc
  have hnotmem : c.item.name ∉ blacklist_words itemTable :=
    not_mem_of_contains_false _ _ hb
  refine ⟨hl, hs, hb, ?_, ?_, hr1, hr2⟩
  · rintro ⟨hmem, hsub⟩
    exact hnotmem (List.mem_append_left _ (List.mem_filter.mpr ⟨hmem, hsub⟩))
  · intro hbee
    exact hnotmem (List.mem_append_right _ (by rw [hbee]; exact List.mem_singleton_self _))

/-- Shop-slot location being filled in the concrete scan instances. -/
def slotLoc0 : Location :=
  { locked := true, shop_slot := true,
    item := { name := "Piece of Heart", player := 1 },
    item_rule := fun _ => true }

/-- Candidate location holding the item "Good Bee". -/
def goodBeeLoc : Location :=
  { locked := false, shop_slot := false,
    item := { name := "Good Bee", player := 1 },
    item_rule := fun _ => true }

/-- Item-table names for the concrete scan instances. -/
def itemTableCex : List String :=
  ["Rupees (50)", "Bee", "Good Bee", "Single Bomb"]

/-- C6 counterexample: the scan accepts the location holding "Good Bee"
although "Bee" is one of the blacklisted substrings and occurs inside
"Good Bee": the runtime check is exact membership in the precomputed name
set (which does contain the exact name "Bee"), not a substring match. -/
theorem swap_candidate_counterexample :
    find_swap_candidate (blacklist_words itemTableCex) slotLoc0 [goodBeeLoc] =
      some goodBeeLoc ∧
    strContains goodBeeLoc.item.name "Bee" = true ∧
    (blacklist_words itemTableCex).contains "Bee" = true := by
  refine ⟨rfl, rfl, rfl⟩

/-- Candidate location holding the item "Single Bomb". -/
def bombLoc : Location :=
  { locked := false, shop_slot := false,
    item := { name := "Single Bomb", player := 1 },
    item_rule := fun _ => true }

/-- C6 witness: the amended statement on the concrete accepted candidate
"Single Bomb". -/
theorem swap_candidate_spec_witness :
    bombLoc.item_rule slotLoc0.item = true ∧
    slotLoc0.item_rule bombLoc.item = true ∧
    bombLoc.item.name ≠ "Bee" :=
  have h := swap_candidate_spec itemTableCex slotLoc0 [bombLoc] bombLoc rfl
  ⟨h.2.2.2.2.2.1, h.2.2.2.2.2.2, h.2.2.2.2.1⟩
